import Mathlib

/-!
Verification of the gmail-transform worker (services/gmail-transform).

The development shallowly embeds the four source modules:
  * openclaw-client.ts : sendToOpenClawWithRetry (bounded retry with backoff)
  * gmail-client.ts    : fetchNewEmails (token refresh, history query with a
                         single 401 retry, per-message fetch with skips,
                         MIME normalisation and snippet truncation)
  * transformer.ts     : transformToOpenClaw
  * index.ts           : isAllowedSender, processNotification

JavaScript strings that are only compared, split, trimmed or lower-cased are
embedded as Lean String / List Char.  Message bodies, where the code performs
index-based truncation (body.substring(0, 200)), are embedded at the
JavaScript representation level: a list of UTF-16 code units (JsStr), since
String.prototype.substring slices code units, not code points.

External collaborators (the network, the KV namespace, mailparser,
html-to-text, the downstream webhook) are modelled as explicit oracles passed
to the embedded functions; the embedded control flow is translated from the
source line by line.
-/

/-- A JavaScript string as stored in memory: a sequence of UTF-16 code units. -/
abbrev JsStr := List Nat

/-- Decode a UTF-16 code-unit sequence into the sequence of code points a
reader of the string observes.  A high surrogate followed by a low surrogate
forms one supplementary code point; an unpaired surrogate stays as itself
(the "lone surrogate" a JavaScript slice can create). -/
def utf16Decode : List Nat → List Nat
  | [] => []
  | [u] => [u]
  | u :: v :: rest =>
    if 0xD800 ≤ u ∧ u < 0xDC00 then
      if 0xDC00 ≤ v ∧ v < 0xE000 then
        (0x10000 + (u - 0xD800) * 0x400 + (v - 0xDC00)) :: utf16Decode rest
      else u :: utf16Decode (v :: rest)
    else u :: utf16Decode (v :: rest)

/-- UTF-16 encoding of one Unicode scalar value. -/
def utf16Char (c : Char) : JsStr :=
  let n := c.toNat
  if n < 0x10000 then [n]
  else [0xD800 + (n - 0x10000) / 0x400, 0xDC00 + (n - 0x10000) % 0x400]

/-- UTF-16 encoding of a Lean string (used where the embedding concatenates
literal text with a JsStr body). -/
def utf16Str (s : String) : JsStr := (s.toList.map utf16Char).flatten

/-- JavaScript String.prototype.substring(s, e) on the code-unit level
(for the arguments the source uses: 0 ≤ s ≤ e). -/
def jsSubstring (l : JsStr) (s e : Nat) : JsStr := (l.take e).drop s

/-! ## index.ts : isAllowedSender

The sender filter works on JavaScript strings through trim / toLowerCase /
split(',') / the regex match /<(.+?)>/.  These primitives are embedded on
List Char. -/

/-- Whitespace as trimmed by String.prototype.trim (restricted to the
white-space characters Lean's Char.isWhitespace knows; all the addresses the
filter compares are ASCII). -/
def isWsJs (c : Char) : Bool := c.isWhitespace

/-- String.prototype.trim: strip leading and trailing whitespace. -/
def jsTrim (l : List Char) : List Char :=
  ((l.dropWhile isWsJs).reverse.dropWhile isWsJs).reverse

/-- String.prototype.toLowerCase (ASCII range, which is what Char.toLower
lowers; the addresses compared by the filter are ASCII). -/
def jsToLower (l : List Char) : List Char := l.map Char.toLower

/-- String.prototype.split(','). -/
def splitComma : List Char → List (List Char)
  | [] => [[]]
  | c :: rest =>
    if c = ',' then [] :: splitComma rest
    else
      match splitComma rest with
      | g :: gs => (c :: g) :: gs
      | [] => [[c]]

/-- Scanner for the closing '>' of the lazy group in /<(.+?)>/: the capture
grows one character at a time until the first '>'; '.' does not match a
newline, so reaching one (or the end) fails this start position. -/
def scanClose (acc : List Char) : List Char → Option (List Char)
  | [] => none
  | c :: rest =>
    if c = '>' then some acc.reverse
    else if c = '\n' then none
    else scanClose (c :: acc) rest

/-- After a '<', the lazy group `(.+?)` must take at least one (non-newline)
character before a '>' can close the match. -/
def lazyCapture : List Char → Option (List Char)
  | [] => none
  | c :: rest => if c = '\n' then none else scanClose [c] rest

/-- fromAddress.match(/<(.+?)>/): the regex engine tries start positions left
to right; at a '<' it takes the shortest non-empty capture closed by a '>',
otherwise it moves on. -/
def angleCapture : List Char → Option (List Char)
  | [] => none
  | c :: rest =>
    if c = '<' then
      match lazyCapture rest with
      | some cap => some cap
      | none => angleCapture rest
    else angleCapture rest

/-- isAllowedSender from index.ts lines 22-37.  Empty or blank ALLOWED_SENDERS
allows everything; otherwise the bare address is extracted from the
"Name <email>" form (falling back to the whole string, as the source's
`|| [null, fromAddress]` does), trimmed and lower-cased, and looked up in
the comma-split, trimmed, lower-cased allow-list. -/
def isAllowedSender (fromAddress allowedSenders : String) : Bool :=
  if jsTrim allowedSenders.toList = [] then true
  else
    let email := jsToLower (jsTrim ((angleCapture fromAddress.toList).getD fromAddress.toList))
    let allowed := (splitComma allowedSenders.toList).map (fun s => jsToLower (jsTrim s))
    allowed.contains email

/-! ## gmail-client.ts : fetchNewEmails -/

/-- A reference to a message inside a history record (`added.message.id`). -/
structure MsgRef where
  id : String
deriving DecidableEq

/-- One entry of GmailHistoryResponse.history.  Only messagesAdded is read by
the code; deletions and label changes are carried to show they are ignored. -/
structure HistoryItem where
  messagesAdded : List MsgRef
  messagesDeleted : List MsgRef
  labelsAdded : List MsgRef
  labelsRemoved : List MsgRef
deriving DecidableEq

/-- An HTTP response: ok (2xx) with a decoded value, or a non-ok status with
its error body. -/
inductive HttpResult (α : Type) where
  | ok (val : α)
  | err (status : Nat) (body : String)

/-- historyResponse.status === 401. -/
def is401 {α : Type} : HttpResult α → Bool
  | .ok _ => false
  | .err s _ => s == 401

/-- mailparser's from/to field: absent, a single AddressObject (a value array
of entries whose address may be absent), or an array of AddressObjects. -/
inductive AddrField where
  | missing
  | single (value : List (Option String))
  | array (objs : List (List (Option String)))

/-- getAddress from gmail-client.ts lines 152-156:
`addr[0]?.value?.[0]?.address || ''` for an array, `addr.value?.[0]?.address
|| ''` otherwise, and '' when the field is absent. -/
def getAddress : AddrField → String
  | .missing => ""
  | .single v => ((v.get? 0).getD none).getD ""
  | .array objs => ((((objs.get? 0).getD []).get? 0).getD none).getD ""

/-- Output of the external MIME parser (simpleParser) on one raw message:
optional plain-text body, optional HTML body, address fields, subject, date.
Bodies are UTF-16 code-unit strings. -/
structure MimeParsed where
  text : Option JsStr
  html : Option JsStr
  fromField : AddrField
  toField : AddrField
  subject : Option String
  date : Option String

/-- The JSON body of a Gmail messages.get(format=raw) response.  `raw` is an
opaque handle passed to the MIME-parser oracle. -/
structure FetchedMessage where
  id : String
  threadId : String
  labelIds : Option (List String)
  raw : Option Nat

/-- ParsedEmail from types.ts.  `from` and `to` are spelled fromAddr and
toAddr because both are reserved in Lean.  snippet and body are code-unit
strings (see JsStr). -/
structure ParsedEmail where
  messageId : String
  fromAddr : String
  toAddr : String
  subject : String
  snippet : JsStr
  body : JsStr
  labels : Option (List String)
  threadId : String
  internalDate : Option String
deriving DecidableEq

/-- The external collaborators of fetchNewEmails: the two token-refresh calls
that can happen while handling one notification, the two history.list
attempts, the per-message fetch, the MIME parser, and html-to-text with the
options the source fixes (wordwrap off, newlines preserved). -/
structure GmailOracle where
  refresh1 : Except String String
  refresh2 : Except String String
  history1 : HttpResult (List HistoryItem)
  history2 : HttpResult (List HistoryItem)
  fetchMsg : String → HttpResult FetchedMessage
  parse : Nat → MimeParsed
  htmlToTextF : JsStr → JsStr

/-- The errors fetchNewEmails can throw: `Token refresh failed …` (the spec's
AuthError) and `Gmail API history.list failed …` (the spec's
ResolutionError). -/
inductive GmailError where
  | tokenRefreshFailed (msg : String)
  | historyListFailed (status : Nat) (body : String)
deriving DecidableEq

/-- JavaScript truthiness of an optional string: undefined and '' are falsy. -/
def jsTruthy : Option JsStr → Bool
  | some l => !l.isEmpty
  | none => false

/-- Body selection (gmail-client.ts lines 139-149): prefer parsed.text; else
convert parsed.html via html-to-text; else ''. -/
def selectBody (ora : GmailOracle) (p : MimeParsed) : JsStr :=
  if jsTruthy p.text then p.text.getD []
  else if jsTruthy p.html then ora.htmlToTextF (p.html.getD [])
  else []

/-- The per-message body of the fetch loop (gmail-client.ts lines 112-173):
fetch one message; on a non-ok response skip it (continue); if the record has
no raw data skip it; otherwise parse the MIME, select the body, extract the
headers and build the ParsedEmail, whose snippet is body.substring(0, 200). -/
def processMessage (ora : GmailOracle) (messageId : String) : Option ParsedEmail :=
  match ora.fetchMsg messageId with
  | .err _ _ => none
  | .ok message =>
    match message.raw with
    | none => none
    | some raw =>
      let parsed := ora.parse raw
      let body := selectBody ora parsed
      some { messageId := message.id
             fromAddr := getAddress parsed.fromField
             toAddr := getAddress parsed.toField
             subject := parsed.subject.getD ""
             snippet := jsSubstring body 0 200
             body := body
             labels := message.labelIds
             threadId := message.threadId
             internalDate := parsed.date }

/-- Message-id collection (gmail-client.ts lines 92-101): walk the history
feed in order and keep `added.message.id` of each messagesAdded record only;
messagesDeleted, labelsAdded and labelsRemoved are not read. -/
def collectAddedIds (feed : List HistoryItem) : List String :=
  feed.flatMap (fun h => h.messagesAdded.map MsgRef.id)

/-- Trace of a fetchNewEmails run: how many token refreshes were performed,
the (mailbox, startHistoryId) argument of each history.list attempt, and the
ids for which a message fetch was issued. -/
structure FetchTrace where
  refreshCalls : Nat
  queries : List (String × String)
  msgRequests : List String
deriving DecidableEq

/-- The tail of fetchNewEmails after the final history response is known
(lines 84-176): a non-ok response throws; otherwise the added ids are
collected, an empty id set returns [], and each id is fetched with failures
skipped. -/
def runHistory (ora : GmailOracle) (rc : Nat) (qs : List (String × String)) :
    HttpResult (List HistoryItem) → Except GmailError (List ParsedEmail) × FetchTrace
  | .err s b => (.error (.historyListFailed s b), ⟨rc, qs, []⟩)
  | .ok feed =>
    let messageIds := collectAddedIds feed
    if messageIds.length = 0 then (.ok [], ⟨rc, qs, []⟩)
    else (.ok (messageIds.filterMap (processMessage ora)), ⟨rc, qs, messageIds⟩)

/-- fetchNewEmails from gmail-client.ts lines 47-176: refresh the access
token (a rejected exchange throws), issue history.list; on a 401 refresh the
token once more and retry the identical query; any non-ok final response
throws; then resolve the added ids to parsed emails. -/
def fetchNewEmails (ora : GmailOracle) (emailAddress startHistoryId : String) :
    Except GmailError (List ParsedEmail) × FetchTrace :=
  match ora.refresh1 with
  | .error e => (.error (.tokenRefreshFailed e), ⟨1, [], []⟩)
  | .ok _tok =>
    let q := (emailAddress, startHistoryId)
    if is401 ora.history1 then
      match ora.refresh2 with
      | .error e => (.error (.tokenRefreshFailed e), ⟨2, [q], []⟩)
      | .ok _tok2 => runHistory ora 2 [q, q] ora.history2
    else runHistory ora 1 [q] ora.history1

/-! ## transformer.ts -/

/-- The OpenClaw webhook payload fields the transformer fills. -/
structure OpenClawPayload where
  message : JsStr
  name : String
  channel : String
  wakeMode : String
deriving DecidableEq

/-- transformToOpenClaw from transformer.ts: the prompt is
"New email from {from}\nSubject: {subject}\n\n{body || snippet}", and name,
channel and wakeMode are fixed constants. -/
def transformToOpenClaw (email : ParsedEmail) : OpenClawPayload :=
  { message := utf16Str ("New email from " ++ email.fromAddr ++ "\nSubject: "
        ++ email.subject ++ "\n\n")
      ++ (if email.body.isEmpty then email.snippet else email.body)
    name := "gmail-notification"
    channel := "last"
    wakeMode := "now" }

/-! ## index.ts : processNotification -/

/-- A decoded Gmail push notification. -/
structure GmailNotification where
  emailAddress : String
  historyId : String

/-- The KV namespace that stores the per-mailbox cursor, as the map
key ↦ stored value. -/
abbrev CursorStore := String → Option String

/-- The key the handler uses for a mailbox. -/
def kvKey (emailAddress : String) : String := "last_history_" ++ emailAddress

/-- env.GMAIL_STATE.put. -/
def kvPut (st : CursorStore) (k v : String) : CursorStore :=
  fun k2 => if k2 = k then some v else st k2

/-- Observable outcome of processNotification: the KV store afterwards, the
payloads delivered downstream in order, whether fetchNewEmails was invoked,
the two counters the summary logs, and whether the top-level catch fired. -/
structure ProcResult where
  store : CursorStore
  delivered : List OpenClawPayload
  resolved : Bool
  processedCount : Nat
  filteredCount : Nat
  caught : Bool

/-- The per-email loop of processNotification (index.ts lines 76-93).
`sendOk i` tells whether the i-th sendToOpenClawWithRetry call of this
notification returns (true) or finally throws (false).  A throw propagates
out of the loop, so the recursion stops and the abort flag is set; payloads
already sent stay delivered. -/
def deliverLoop (allowedSenders : String) (sendOk : Nat → Bool) :
    List ParsedEmail → Nat → Nat → Nat → List OpenClawPayload × Nat × Nat × Bool
  | [], _i, p, f => ([], p, f, false)
  | email :: rest, i, p, f =>
    if isAllowedSender email.fromAddr allowedSenders = false then
      deliverLoop allowedSenders sendOk rest i p (f + 1)
    else if sendOk i then
      match deliverLoop allowedSenders sendOk rest (i + 1) (p + 1) f with
      | (d, p2, f2, ab) => (transformToOpenClaw email :: d, p2, f2, ab)
    else ([], p, f, true)

/-- processNotification from index.ts lines 44-103.  KV get; a missing (or
falsy, i.e. empty) stored value stores the incoming historyId as baseline and
returns; otherwise changes are fetched (any throw lands in the top-level
catch and is swallowed, leaving the store untouched); an empty result still
advances the cursor; otherwise each email is filtered and delivered, a
delivery throw aborts the loop into the catch, and only after the loop
completes is the cursor advanced to the notification's historyId. -/
def processNotification (ora : GmailOracle) (sendOk : Nat → Bool)
    (allowedSenders : String) (store : CursorStore) (n : GmailNotification) :
    ProcResult :=
  match store (kvKey n.emailAddress) with
  | none =>
    { store := kvPut store (kvKey n.emailAddress) n.historyId, delivered := []
      resolved := false, processedCount := 0, filteredCount := 0, caught := false }
  | some lastHistoryId =>
    if lastHistoryId = "" then
      { store := kvPut store (kvKey n.emailAddress) n.historyId, delivered := []
        resolved := false, processedCount := 0, filteredCount := 0, caught := false }
    else
      match (fetchNewEmails ora n.emailAddress lastHistoryId).1 with
      | .error _ =>
        { store := store, delivered := [], resolved := true
          processedCount := 0, filteredCount := 0, caught := true }
      | .ok emails =>
        if emails.length = 0 then
          { store := kvPut store (kvKey n.emailAddress) n.historyId, delivered := []
            resolved := true, processedCount := 0, filteredCount := 0, caught := false }
        else
          match deliverLoop allowedSenders sendOk emails 0 0 0 with
          | (d, p, f, aborted) =>
            if aborted then
              { store := store, delivered := d, resolved := true
                processedCount := p, filteredCount := f, caught := true }
            else
              { store := kvPut store (kvKey n.emailAddress) n.historyId, delivered := d
                resolved := true, processedCount := p, filteredCount := f, caught := false }

/-- Resolve every element of a list through a partial function, failing if
any element fails (used to say "every fetch succeeded, yielding this list"). -/
def resolveAll {α β : Type} (f : α → Option β) : List α → Option (List β)
  | [] => some []
  | a :: l =>
    match f a with
    | none => none
    | some b => (resolveAll f l).map (fun bs => b :: bs)

/-! ## Concrete fixtures used by witnesses and counterexamples -/

/-- A parse result with nothing in it. -/
def mimeDefault : MimeParsed :=
  { text := none, html := none, fromField := .missing, toField := .missing
    subject := none, date := none }

/-- A default ParsedEmail (only used as the getD fallback of Options that are
proven to be some). -/
def emailDefault : ParsedEmail :=
  { messageId := "", fromAddr := "", toAddr := "", subject := "", snippet := []
    body := [], labels := none, threadId := "", internalDate := none }

/-- Oracle for a run whose history feed is empty. -/
def oraEmptyFeed : GmailOracle :=
  { refresh1 := .ok "tok", refresh2 := .ok "tok2"
    history1 := .ok [], history2 := .ok []
    fetchMsg := fun _ => .err 500 "", parse := fun _ => mimeDefault
    htmlToTextF := fun l => l }

/-- A parse result: plain-text body "Hi" (code units 72, 105), given sender,
subject "Hello". -/
def mimeHi (sender : String) : MimeParsed :=
  { text := some [72, 105], html := none, fromField := .single [some sender]
    toField := .missing, subject := some "Hello", date := none }

/-- Oracle for a feed of two added messages m1, m2 from spam@y.com, both
fetchable. -/
def oraTwoMsgs : GmailOracle :=
  { refresh1 := .ok "tok", refresh2 := .ok "tok2"
    history1 := .ok [⟨[⟨"m1"⟩, ⟨"m2"⟩], [], [], []⟩], history2 := .ok []
    fetchMsg := fun mid => .ok ⟨mid, "t1", none, some 0⟩
    parse := fun _ => mimeHi "spam@y.com"
    htmlToTextF := fun l => l }

/-- Oracle for a feed of three added messages where the fetch of m2 fails
with a 500. -/
def oraSkip : GmailOracle :=
  { refresh1 := .ok "tok", refresh2 := .ok "tok2"
    history1 := .ok [⟨[⟨"m1"⟩, ⟨"m2"⟩, ⟨"m3"⟩], [], [], []⟩], history2 := .ok []
    fetchMsg := fun mid => if mid = "m2" then .err 500 "boom"
      else .ok ⟨mid, "t1", none, some 0⟩
    parse := fun _ => mimeHi "spam@y.com"
    htmlToTextF := fun l => l }

/-- Oracle for a feed of one added message whose fetch succeeds but whose
record carries no raw data. -/
def oraNoRaw : GmailOracle :=
  { refresh1 := .ok "tok", refresh2 := .ok "tok2"
    history1 := .ok [⟨[⟨"m1"⟩], [], [], []⟩], history2 := .ok []
    fetchMsg := fun mid => .ok ⟨mid, "t1", none, none⟩
    parse := fun _ => mimeDefault
    htmlToTextF := fun l => l }

/-- Oracle whose first history query is rejected with 401 and whose retried
query fails with 403. -/
def ora401 : GmailOracle :=
  { refresh1 := .ok "tok", refresh2 := .ok "tok2"
    history1 := .err 401 "expired", history2 := .err 403 "denied"
    fetchMsg := fun _ => .err 500 "", parse := fun _ => mimeDefault
    htmlToTextF := fun l => l }

/-- A message body of 201 UTF-16 code units: 199 'a' (97) followed by the
surrogate pair D835 DE00 (one supplementary code point). -/
def c8Body : JsStr := List.replicate 199 97 ++ [0xD835, 0xDE00]

/-- Oracle for a feed of one added message whose plain-text body is c8Body. -/
def oraAstral : GmailOracle :=
  { refresh1 := .ok "tok", refresh2 := .ok "tok2"
    history1 := .ok [⟨[⟨"m1"⟩], [], [], []⟩], history2 := .ok []
    fetchMsg := fun mid => .ok ⟨mid, "t1", none, some 0⟩
    parse := fun _ => { text := some c8Body, html := none
                        fromField := .single [some "a@x.com"], toField := .missing
                        subject := some "s", date := none }
    htmlToTextF := fun l => l }

/-- The email oraAstral's run produces for m1. -/
def astralEmail : ParsedEmail := (processMessage oraAstral "m1").getD emailDefault

/-- A cursor store holding "40" for mailbox a@x.com. -/
def store40 : CursorStore := fun k => if k = kvKey "a@x.com" then some "40" else none

/-- A cursor store holding "50" for mailbox a@x.com. -/
def store50 : CursorStore := fun k => if k = kvKey "a@x.com" then some "50" else none

/-- The notification ⟨a@x.com, "50"⟩. -/
def n50 : GmailNotification := { emailAddress := "a@x.com", historyId := "50" }

/-- Numeric value of a decimal cursor string (Gmail historyIds are decimal),
used to compare two concrete cursors. -/
def cursorVal (s : String) : Nat :=
  s.toList.foldl (fun acc c => acc * 10 + (c.toNat - 48)) 0

theorem utf16Decode_length_le (l : List Nat) : (utf16Decode l).length ≤ l.length := by
  induction l using utf16Decode.induct with
  | case1 => simp [utf16Decode]
  | case2 u => simp [utf16Decode]
  | case3 u v rest h1 h2 ih =>
      simp only [utf16Decode, if_pos h1, if_pos h2, List.length_cons]
      simp only [List.length_cons] at ih ⊢
      omega
  | case4 u v rest h1 h2 ih =>
      simp only [utf16Decode, if_pos h1, if_neg h2, List.length_cons]
      simp only [List.length_cons] at ih ⊢
      omega
  | case5 u v rest h1 ih =>
      simp only [utf16Decode, if_neg h1, List.length_cons]
      simp only [List.length_cons] at ih ⊢
      omega

/-! ## openclaw-client.ts -/

/-- Outcome of one sendToOpenClaw call (a POST through the service binding):
either an ok response, or a thrown error message (non-2xx status or network
failure). -/
inductive SendOutcome where
  | ok (resp : Nat)
  | fail (err : String)
deriving DecidableEq

/-- Observable result of sendToOpenClawWithRetry: the value returned or the
error finally thrown, the number of sendToOpenClaw attempts made, and the
sequence of backoff delays (milliseconds) awaited between attempts. -/
structure RetryResult where
  result : Except String Nat
  attempts : Nat
  delays : List Nat

/-- delayMs = Math.min(1000 * Math.pow(2, attempt), 10000) from
openclaw-client.ts line 61. -/
def backoffDelay (attempt : Nat) : Nat := min (1000 * 2 ^ attempt) 10000

/-- The retry loop of sendToOpenClawWithRetry.  The source iterates
`for (attempt = 0; attempt < maxRetries; attempt++)`; here `remaining`
counts the iterations still permitted (`maxRetries - attempt`), so the
recursion is structural.  On each iteration the attempt either returns, or
its error is recorded and — when it is not the final attempt
(`attempt < maxRetries - 1`, i.e. the decremented `remaining` is positive) —
a backoff delay is awaited.  When the loop ends the last error (or the
fallback message) is thrown. -/
def retryGo (outcome : Nat → SendOutcome) :
    Nat → Nat → Option String → List Nat → RetryResult
  | 0, attempt, lastError, delays =>
    { result := .error (lastError.getD "OpenClaw webhook failed after retries")
      attempts := attempt
      delays := delays }
  | remaining + 1, attempt, _lastError, delays =>
    match outcome attempt with
    | .ok r => { result := .ok r, attempts := attempt + 1, delays := delays }
    | .fail e =>
      retryGo outcome remaining (attempt + 1) (some e)
        (if 0 < remaining then delays ++ [backoffDelay attempt] else delays)

/-- sendToOpenClawWithRetry from openclaw-client.ts, with the delivery
attempts abstracted by the `outcome` oracle (attempt index ↦ result of that
sendToOpenClaw call).  The source default is maxRetries = 1. -/
def sendToOpenClawWithRetry (outcome : Nat → SendOutcome)
    (maxRetries : Nat := 1) : RetryResult :=
  retryGo outcome maxRetries 0 none []

theorem retryGo_zero (outcome : Nat → SendOutcome) (att : Nat) (le : Option String)
    (ds : List Nat) :
    retryGo outcome 0 att le ds =
      { result := .error (le.getD "OpenClaw webhook failed after retries")
        attempts := att, delays := ds } := rfl

theorem retryGo_succ_ok (outcome : Nat → SendOutcome) (r att : Nat) (le : Option String)
    (ds : List Nat) (v : Nat) (h : outcome att = .ok v) :
    retryGo outcome (r + 1) att le ds = { result := .ok v, attempts := att + 1, delays := ds } := by
  simp [retryGo, h]

theorem retryGo_succ_fail (outcome : Nat → SendOutcome) (r att : Nat) (le : Option String)
    (ds : List Nat) (e : String) (h : outcome att = .fail e) :
    retryGo outcome (r + 1) att le ds =
      retryGo outcome r (att + 1) (some e)
        (if 0 < r then ds ++ [backoffDelay att] else ds) := by
  simp [retryGo, h]

theorem retryGo_attempts_ge (outcome : Nat → SendOutcome) :
    ∀ rem att le ds, att ≤ (retryGo outcome rem att le ds).attempts := by
  intro rem
  induction rem with
  | zero => intro att le ds; rw [retryGo_zero]
  | succ r ih =>
    intro att le ds
    cases h : outcome att with
    | ok v => rw [retryGo_succ_ok outcome r att le ds v h]; exact Nat.le_succ att
    | fail e =>
      rw [retryGo_succ_fail outcome r att le ds e h]
      exact Nat.le_trans (Nat.le_succ att) (ih (att + 1) _ _)

theorem retryGo_attempts_le (outcome : Nat → SendOutcome) :
    ∀ rem att le ds, (retryGo outcome rem att le ds).attempts ≤ att + rem := by
  intro rem
  induction rem with
  | zero => intro att le ds; rw [retryGo_zero]; simp
  | succ r ih =>
    intro att le ds
    cases h : outcome att with
    | ok v => rw [retryGo_succ_ok outcome r att le ds v h]; dsimp only; omega
    | fail e =>
      rw [retryGo_succ_fail outcome r att le ds e h]
      have := ih (att + 1) (some e) (if 0 < r then ds ++ [backoffDelay att] else ds)
      omega

theorem retryGo_attempts_lb (outcome : Nat → SendOutcome) :
    ∀ rem att le ds, 0 < rem → att + 1 ≤ (retryGo outcome rem att le ds).attempts := by
  intro rem att le ds hrem
  cases rem with
  | zero => omega
  | succ r =>
    cases h : outcome att with
    | ok v => rw [retryGo_succ_ok outcome r att le ds v h]
    | fail e =>
      rw [retryGo_succ_fail outcome r att le ds e h]
      exact retryGo_attempts_ge outcome r (att + 1) _ _

theorem retryGo_delays (outcome : Nat → SendOutcome) :
    ∀ rem att le ds,
      (retryGo outcome rem att le ds).delays =
        ds ++ (List.range' att ((retryGo outcome rem att le ds).attempts - 1 - att)).map backoffDelay := by
  intro rem
  induction rem with
  | zero => intro att le ds; rw [retryGo_zero]; simp
  | succ r ih =>
    intro att le ds
    cases h : outcome att with
    | ok v => rw [retryGo_succ_ok outcome r att le ds v h]; simp
    | fail e =>
      rw [retryGo_succ_fail outcome r att le ds e h]
      cases r with
      | zero =>
        simp only [if_neg (by omega : ¬ (0:Nat) < 0)]
        rw [retryGo_zero]
        simp
      | succ r' =>
        simp only [if_pos (by omega : (0:Nat) < r' + 1)]
        rw [ih (att + 1) (some e) (ds ++ [backoffDelay att])]
        have hlb := retryGo_attempts_lb outcome (r' + 1) (att + 1) (some e)
          (ds ++ [backoffDelay att]) (by omega)
        have hA : (retryGo outcome (r' + 1) (att + 1) (some e) (ds ++ [backoffDelay att])).attempts
            - 1 - att = ((retryGo outcome (r' + 1) (att + 1) (some e)
              (ds ++ [backoffDelay att])).attempts - 1 - (att + 1)) + 1 := by omega
        rw [hA, List.range'_succ, List.map_cons, List.append_assoc]
        simp

theorem retryGo_all_fail (outcome : Nat → SendOutcome) :
    ∀ rem att le ds, 0 < rem →
      (∀ i, att ≤ i → i < att + rem → ∃ e, outcome i = .fail e) →
      ∃ e, outcome (att + rem - 1) = .fail e ∧
        (retryGo outcome rem att le ds).result = .error e := by
  intro rem
  induction rem with
  | zero => intro att le ds h; omega
  | succ r ih =>
    intro att le ds _ hall
    obtain ⟨e, he⟩ := hall att (Nat.le_refl att) (by omega)
    cases r with
    | zero =>
      refine ⟨e, by simpa using he, ?_⟩
      rw [retryGo_succ_fail outcome 0 att le ds e he]
      rw [retryGo_zero]
      rfl
    | succ r' =>
      obtain ⟨e', he', hres⟩ := ih (att + 1) (some e)
        (if 0 < r' + 1 then ds ++ [backoffDelay att] else ds) (by omega)
        (fun i h1 h2 => hall i (by omega) (by omega))
      refine ⟨e', ?_, ?_⟩
      · have heq : att + 1 + (r' + 1) - 1 = att + (r' + 1 + 1) - 1 := by omega
        rw [← heq]; exact he'
      · rw [retryGo_succ_fail outcome (r' + 1) att le ds e he]
        exact hres

theorem backoffDelay_mono : ∀ a b : Nat, a ≤ b → backoffDelay a ≤ backoffDelay b := by
  intro a b hab
  unfold backoffDelay
  have : 2 ^ a ≤ 2 ^ b := Nat.pow_le_pow_right (by omega) hab
  omega

theorem backoffDelay_le_cap (a : Nat) : backoffDelay a ≤ 10000 := by
  unfold backoffDelay; omega

/-- C5: retry bound and backoff.  For every outcome oracle and every
maxRetries ≥ 1, sendToOpenClawWithRetry makes at most maxRetries attempts;
the delays awaited between consecutive attempts are exactly
min(1000·2^attempt, 10000) for attempt = 0, 1, … (one per non-final failed
attempt), a non-decreasing sequence capped at 10000 ms with base 1000 ms;
if every attempt fails, the error of the last attempt is thrown to the
caller; and the default configuration (maxRetries omitted, hence 1) makes
exactly one attempt and never waits. -/
theorem retry_bound_backoff (outcome : Nat → SendOutcome) (maxRetries : Nat)
    (hmr : 1 ≤ maxRetries) :
    (sendToOpenClawWithRetry outcome maxRetries).attempts ≤ maxRetries ∧
    (sendToOpenClawWithRetry outcome maxRetries).delays =
      (List.range ((sendToOpenClawWithRetry outcome maxRetries).attempts - 1)).map backoffDelay ∧
    (∀ a b : Nat, a ≤ b → backoffDelay a ≤ backoffDelay b) ∧
    (∀ d ∈ (sendToOpenClawWithRetry outcome maxRetries).delays, d ≤ 10000) ∧
    ((∀ i, i < maxRetries → ∃ e, outcome i = .fail e) →
      ∃ e, outcome (maxRetries - 1) = .fail e ∧
        (sendToOpenClawWithRetry outcome maxRetries).result = .error e) ∧
    (sendToOpenClawWithRetry outcome).attempts = 1 ∧
    (sendToOpenClawWithRetry outcome).delays = [] := by
  unfold sendToOpenClawWithRetry
  refine ⟨?_, ?_, backoffDelay_mono, ?_, ?_, ?_, ?_⟩
  · have := retryGo_attempts_le outcome maxRetries 0 none []
    omega
  · have := retryGo_delays outcome maxRetries 0 none []
    simpa [List.range_eq_range'] using this
  · intro d hd
    have hform := retryGo_delays outcome maxRetries 0 none []
    rw [hform] at hd
    simp only [List.nil_append, List.mem_map] at hd
    obtain ⟨a, _, rfl⟩ := hd
    exact backoffDelay_le_cap a
  · intro hall
    have := retryGo_all_fail outcome maxRetries 0 none [] (by omega)
      (fun i _ h2 => hall i (by omega))
    simpa using this
  · cases h : outcome 0 with
    | ok v => rw [retryGo_succ_ok outcome 0 0 none [] v h]
    | fail e => rw [retryGo_succ_fail outcome 0 0 none [] e h]; rw [retryGo_zero]
  · cases h : outcome 0 with
    | ok v => rw [retryGo_succ_ok outcome 0 0 none [] v h]
    | fail e =>
      rw [retryGo_succ_fail outcome 0 0 none [] e h]
      simp only [if_neg (by omega : ¬ (0:Nat) < 0)]
      rw [retryGo_zero]

/-- Witness for C5 at a concrete input: three attempts that all fail; the
wrapper makes 3 attempts, waits 1000 ms then 2000 ms, and throws the final
attempt's error. -/
theorem retry_bound_backoff_witness :
    ((1:Nat) ≤ 3 ∧
      (sendToOpenClawWithRetry (fun _ => .fail "boom") 3).attempts ≤ 3) ∧
    (sendToOpenClawWithRetry (fun _ => .fail "boom") 3).delays = [1000, 2000] ∧
    (sendToOpenClawWithRetry (fun _ => .fail "boom") 3).result = .error "boom" := by
  have h := retry_bound_backoff (fun _ => .fail "boom") 3 (by omega)
  refine ⟨⟨by omega, h.1⟩, by decide, ?_⟩
  obtain ⟨e, he, hres⟩ := h.2.2.2.2.1 (fun i _ => ⟨"boom", rfl⟩)
  have he' : SendOutcome.fail "boom" = SendOutcome.fail e := he
  injection he' with h2
  rw [← h2] at hres
  exact hres

/-! ## Pipeline lemmas -/

theorem fetchNewEmails_ok (ora : GmailOracle) (m c tok : String)
    (feed : List HistoryItem)
    (htok : ora.refresh1 = .ok tok) (hfeed : ora.history1 = .ok feed) :
    (fetchNewEmails ora m c).1 =
      .ok ((collectAddedIds feed).filterMap (processMessage ora)) := by
  unfold fetchNewEmails
  rw [htok, hfeed]
  simp only [is401, Bool.false_eq_true, if_false]
  simp only [runHistory]
  by_cases h : (collectAddedIds feed).length = 0
  · rw [if_pos h]
    simp [List.length_eq_zero.mp h]
  · rw [if_neg h]

theorem resolveAll_filterMap {α β : Type} (f : α → Option β) :
    ∀ (l : List α) (es : List β), resolveAll f l = some es → l.filterMap f = es := by
  intro l
  induction l with
  | nil => intro es h; simp [resolveAll] at h; simp [h]
  | cons a t ih =>
    intro es h
    unfold resolveAll at h
    cases hfa : f a with
    | none => rw [hfa] at h; simp at h
    | some b =>
      rw [hfa] at h
      simp only [Option.map_eq_some'] at h
      obtain ⟨bs, hbs, rfl⟩ := h
      rw [List.filterMap_cons_some hfa, ih bs hbs]

theorem deliverLoop_all_ok (allowed : String) (sendOk : Nat → Bool)
    (hsend : ∀ j, sendOk j = true) :
    ∀ (es : List ParsedEmail) (i p f : Nat),
      deliverLoop allowed sendOk es i p f =
        ((es.filter (fun e => isAllowedSender e.fromAddr allowed)).map transformToOpenClaw,
          p + es.countP (fun e => isAllowedSender e.fromAddr allowed),
          f + es.countP (fun e => !(isAllowedSender e.fromAddr allowed)), false) := by
  intro es
  induction es with
  | nil => intro i p f; simp [deliverLoop]
  | cons e rest ih =>
    intro i p f
    by_cases hpass : isAllowedSender e.fromAddr allowed = true
    · rw [deliverLoop, if_neg (by simp [hpass]), if_pos (hsend i), ih (i + 1) (p + 1) f]
      simp [List.filter_cons, List.countP_cons, hpass]
      omega
    · have hpass2 : isAllowedSender e.fromAddr allowed = false := by
        cases hb : isAllowedSender e.fromAddr allowed
        · rfl
        · exact absurd hb hpass
      rw [deliverLoop, if_pos (by rw [hpass2]), ih i p (f + 1)]
      simp [List.filter_cons, List.countP_cons, hpass2]
      omega

theorem deliverLoop_fail (allowed : String) (sendOk : Nat → Bool) :
    ∀ (es : List ParsedEmail) (k i p f : Nat),
      (∀ j, j < k → sendOk (i + j) = true) → sendOk (i + k) = false →
      k < (es.filter (fun e => isAllowedSender e.fromAddr allowed)).length →
      ∃ fc, deliverLoop allowed sendOk es i p f =
        (((es.filter (fun e => isAllowedSender e.fromAddr allowed)).take k).map
            transformToOpenClaw, p + k, fc, true) := by
  intro es
  induction es with
  | nil => intro k i p f _ _ hk; simp at hk
  | cons e rest ih =>
    intro k i p f hok hfail hk
    by_cases hpass : isAllowedSender e.fromAddr allowed = true
    · rw [List.filter_cons_of_pos (by simp [hpass])] at hk ⊢
      cases k with
      | zero =>
        have h0 : sendOk i = false := by simpa using hfail
        refine ⟨f, ?_⟩
        rw [deliverLoop, if_neg (by simp [hpass]), if_neg (by simp [h0])]
        simp
      | succ k2 =>
        have h0 : sendOk i = true := by simpa using hok 0 (by omega)
        obtain ⟨fc, hfc⟩ := ih k2 (i + 1) (p + 1) f
          (fun j hj => by
            have := hok (j + 1) (by omega)
            simpa [Nat.add_assoc, Nat.add_comm 1 j] using this)
          (by
            have : i + (k2 + 1) = i + 1 + k2 := by omega
            rwa [this] at hfail)
          (by simpa using hk)
        refine ⟨fc, ?_⟩
        rw [deliverLoop, if_neg (by simp [hpass]), if_pos h0, hfc]
        simp [List.take_succ_cons]
        omega
    · have hpass2 : isAllowedSender e.fromAddr allowed = false := by
        cases hb : isAllowedSender e.fromAddr allowed
        · rfl
        · exact absurd hb hpass
      rw [List.filter_cons_of_neg (by simp [hpass2])] at hk
      obtain ⟨fc, hfc⟩ := ih k i p (f + 1) hok hfail hk
      refine ⟨fc, ?_⟩
      rw [deliverLoop, if_pos (by rw [hpass2]), hfc,
        List.filter_cons_of_neg (by simp [hpass2])]

theorem processNotification_nominal (ora : GmailOracle) (sendOk : Nat → Bool)
    (allowed : String) (store : CursorStore) (n : GmailNotification)
    (cursor1 tok : String) (feed : List HistoryItem)
    (hC1 : store (kvKey n.emailAddress) = some cursor1) (hne : cursor1 ≠ "")
    (htok : ora.refresh1 = .ok tok) (hfeed : ora.history1 = .ok feed)
    (hsend : ∀ j, sendOk j = true) :
    processNotification ora sendOk allowed store n =
      { store := kvPut store (kvKey n.emailAddress) n.historyId
        delivered := (((collectAddedIds feed).filterMap (processMessage ora)).filter
            (fun e => isAllowedSender e.fromAddr allowed)).map transformToOpenClaw
        resolved := true
        processedCount := ((collectAddedIds feed).filterMap (processMessage ora)).countP
            (fun e => isAllowedSender e.fromAddr allowed)
        filteredCount := ((collectAddedIds feed).filterMap (processMessage ora)).countP
            (fun e => !(isAllowedSender e.fromAddr allowed))
        caught := false } := by
  have hfetch := fetchNewEmails_ok ora n.emailAddress cursor1 tok feed htok hfeed
  unfold processNotification
  rw [hC1]
  simp only [if_neg hne]
  rw [hfetch]
  by_cases hlen : ((collectAddedIds feed).filterMap (processMessage ora)).length = 0
  · have hnil : (collectAddedIds feed).filterMap (processMessage ora) = [] :=
      List.length_eq_zero.mp hlen
    rw [hnil]
    simp
  · simp only [if_neg hlen]
    rw [deliverLoop_all_ok allowed sendOk hsend
      ((collectAddedIds feed).filterMap (processMessage ora)) 0 0 0]
    simp

/-! ## Lemmas about the /<(.+?)>/ extraction -/

theorem scanClose_spec (rest : List Char) :
    ∀ (mid acc : List Char), '>' ∉ mid → '\n' ∉ mid →
      scanClose acc (mid ++ '>' :: rest) = some (acc.reverse ++ mid) := by
  intro mid
  induction mid with
  | nil => intro acc _ _; simp [scanClose]
  | cons c mid2 ih =>
    intro acc hgt hnl
    have hc1 : c ≠ '>' := fun h => hgt (by simp [h])
    have hc2 : c ≠ '\n' := fun h => hnl (by simp [h])
    rw [List.cons_append, scanClose, if_neg hc1, if_neg hc2,
      ih (c :: acc) (fun h => hgt (by simp [h])) (fun h => hnl (by simp [h]))]
    simp

theorem lazyCapture_spec (addr rest : List Char) (h1 : addr ≠ [])
    (h2 : '>' ∉ addr) (h3 : '\n' ∉ addr) :
    lazyCapture (addr ++ '>' :: rest) = some addr := by
  cases addr with
  | nil => exact absurd rfl h1
  | cons c cs =>
    have hc2 : c ≠ '\n' := fun h => h3 (by simp [h])
    rw [List.cons_append, lazyCapture, if_neg hc2,
      scanClose_spec rest cs [c] (fun h => h2 (by simp [h]))
        (fun h => h3 (by simp [h]))]
    simp

theorem angleCapture_skip (l : List Char) :
    ∀ pre : List Char, '<' ∉ pre → angleCapture (pre ++ l) = angleCapture l := by
  intro pre
  induction pre with
  | nil => intro _; simp
  | cons c pre2 ih =>
    intro h
    have hc : c ≠ '<' := fun hc => h (by simp [hc])
    rw [List.cons_append, angleCapture, if_neg hc, ih (fun hm => h (by simp [hm]))]

theorem angleCapture_none (l : List Char) (h : '<' ∉ l) : angleCapture l = none := by
  have := angleCapture_skip [] l h
  simpa using this

theorem angleCapture_display (dispName addr : List Char) (h0 : '<' ∉ dispName)
    (h1 : addr ≠ []) (h2 : '>' ∉ addr) (h3 : '\n' ∉ addr) :
    angleCapture (dispName ++ '<' :: (addr ++ ['>'])) = some addr := by
  rw [angleCapture_skip ('<' :: (addr ++ ['>'])) dispName h0, angleCapture,
    if_pos rfl]
  have : addr ++ ['>'] = addr ++ '>' :: [] := rfl
  rw [this, lazyCapture_spec addr [] h1 h2 h3]

/-! ## Claim theorems -/

/-- C9: sender filter.  isAllowedSender is a pure function of its two
arguments (a Lean function, so purity is structural).  (1) A blank or empty
allow-list accepts every address.  (2) Otherwise it accepts exactly when the
trimmed, lower-cased address extracted from the from-field belongs to the
comma-split, trimmed, lower-cased allow-list — a case-insensitive comparison
of full addresses, with no domain-only matching.  (3) On a
"Display Name <address>" form the extraction yields exactly the bracketed
address.  (4) An input with no angle bracket (a bare address) is tolerated:
the whole string is used. -/
theorem sender_filter_spec (f a : String) (dispName addr : List Char) :
    (jsTrim a.toList = [] → isAllowedSender f a = true) ∧
    (jsTrim a.toList ≠ [] →
      (isAllowedSender f a = true ↔
        jsToLower (jsTrim ((angleCapture f.toList).getD f.toList)) ∈
          (splitComma a.toList).map (fun s => jsToLower (jsTrim s)))) ∧
    ('<' ∉ dispName → addr ≠ [] → '>' ∉ addr → '\n' ∉ addr →
      angleCapture (dispName ++ '<' :: (addr ++ ['>'])) = some addr) ∧
    ('<' ∉ f.toList →
      jsToLower (jsTrim ((angleCapture f.toList).getD f.toList)) =
        jsToLower (jsTrim f.toList)) := by
  refine ⟨?_, ?_, ?_, ?_⟩
  · intro h
    unfold isAllowedSender
    rw [if_pos h]
  · intro h
    unfold isAllowedSender
    rw [if_neg h]
    simp [List.contains, List.elem_iff]
  · intro h0 h1 h2 h3
    exact angleCapture_display dispName addr h0 h1 h2 h3
  · intro h
    rw [angleCapture_none f.toList h]
    rfl

/-- Witness for C9: the display form "Ada Lovelace <USER@Example.COM>" is
accepted against the allow-list " user@example.com, b@y.z " (case-insensitive
full-address comparison), and the extraction on a concrete display form
returns the bracketed address. -/
theorem sender_filter_spec_witness :
    isAllowedSender "Ada Lovelace <USER@Example.COM>" " user@example.com, b@y.z " = true ∧
    angleCapture ("Ada ".toList ++ '<' :: ("u@x".toList ++ ['>'])) = some "u@x".toList := by
  have h := sender_filter_spec "Ada Lovelace <USER@Example.COM>"
    " user@example.com, b@y.z " "Ada ".toList "u@x".toList
  refine ⟨(h.2.1 (by decide)).mpr (by decide),
    h.2.2.1 (by decide) (by decide) (by decide) (by decide)⟩

/-- C3: baseline property.  For a mailbox with no stored cursor, processing
any notification stores the notification's cursor as baseline and stops: the
result — for every oracle and delivery behaviour — is exactly the updated
store with zero deliveries, no resolution (fetchNewEmails is not invoked)
and no error. -/
theorem baseline_property (ora : GmailOracle) (sendOk : Nat → Bool)
    (allowed : String) (store : CursorStore) (n : GmailNotification)
    (h : store (kvKey n.emailAddress) = none) :
    processNotification ora sendOk allowed store n =
      { store := kvPut store (kvKey n.emailAddress) n.historyId
        delivered := [], resolved := false, processedCount := 0
        filteredCount := 0, caught := false } := by
  unfold processNotification
  rw [h]

/-- Witness for C3: an empty store, the notification ⟨a@x.com, "7"⟩. -/
theorem baseline_property_witness :
    processNotification oraEmptyFeed (fun _ => true) "" (fun _ => none)
        { emailAddress := "a@x.com", historyId := "7" } =
      { store := kvPut (fun _ => none) (kvKey "a@x.com") "7"
        delivered := [], resolved := false, processedCount := 0
        filteredCount := 0, caught := false } :=
  baseline_property oraEmptyFeed (fun _ => true) "" (fun _ => none)
    { emailAddress := "a@x.com", historyId := "7" } rfl

/-- C1: diff property.  For a mailbox whose stored cursor is cursor1 (a real,
non-empty cursor) and a notification carrying historyId C2, when the token
refresh and the history query succeed — the oracle's feed being the change
records between cursor1 and C2 — and every listed message resolves and every
delivery succeeds, the handler delivers exactly the messages of the
"messagesAdded" records (es, in feed order) that pass the sender filter,
transformed to payloads; records of deletions and label changes contribute
nothing (the conclusion depends on the feed only through its messagesAdded
ids); and afterwards the stored cursor for that mailbox equals C2 while every
other key is untouched. -/
theorem diff_property (ora : GmailOracle) (sendOk : Nat → Bool)
    (allowed : String) (store : CursorStore) (n : GmailNotification)
    (cursor1 tok : String) (feed : List HistoryItem) (es : List ParsedEmail)
    (hC1 : store (kvKey n.emailAddress) = some cursor1) (hne : cursor1 ≠ "")
    (htok : ora.refresh1 = .ok tok) (hfeed : ora.history1 = .ok feed)
    (hres : resolveAll (processMessage ora) (collectAddedIds feed) = some es)
    (hsend : ∀ j, sendOk j = true) :
    (processNotification ora sendOk allowed store n).delivered =
      (es.filter (fun e => isAllowedSender e.fromAddr allowed)).map
        transformToOpenClaw ∧
    (processNotification ora sendOk allowed store n).store
        (kvKey n.emailAddress) = some n.historyId ∧
    (∀ k, k ≠ kvKey n.emailAddress →
      (processNotification ora sendOk allowed store n).store k = store k) ∧
    (processNotification ora sendOk allowed store n).caught = false := by
  have hmap := resolveAll_filterMap (processMessage ora) (collectAddedIds feed) es hres
  have hmaster := processNotification_nominal ora sendOk allowed store n
    cursor1 tok feed hC1 hne htok hfeed hsend
  rw [hmaster, hmap]
  refine ⟨rfl, ?_, ?_, rfl⟩
  · simp [kvPut]
  · intro k hk
    simp [kvPut, hk]

/-- Witness for C1: stored cursor "40", notification cursor "50", a feed of
two added messages that both resolve, an empty allow-list and successful
deliveries: both messages are delivered in feed order and the cursor becomes
"50". -/
theorem diff_property_witness :
    (processNotification oraTwoMsgs (fun _ => true) "" store40 n50).delivered =
      ((((collectAddedIds [⟨[⟨"m1"⟩, ⟨"m2"⟩], [], [], []⟩]).filterMap
          (processMessage oraTwoMsgs)).filter
            (fun e => isAllowedSender e.fromAddr "")).map transformToOpenClaw) ∧
    (processNotification oraTwoMsgs (fun _ => true) "" store40 n50).store
        (kvKey "a@x.com") = some "50" ∧
    (processNotification oraTwoMsgs (fun _ => true) "" store40 n50).delivered.length = 2 := by
  have h := diff_property oraTwoMsgs (fun _ => true) "" store40 n50 "40" "tok"
    [⟨[⟨"m1"⟩, ⟨"m2"⟩], [], [], []⟩]
    ((collectAddedIds [⟨[⟨"m1"⟩, ⟨"m2"⟩], [], [], []⟩]).filterMap
      (processMessage oraTwoMsgs))
    rfl (by decide) rfl rfl (by decide) (fun j => rfl)
  exact ⟨h.1, h.2.1, by decide⟩

/-- C7: fetch-skip containment.  A failed per-message fetch makes
processMessage skip that id (no error); the history resolution still returns
exactly the successfully fetched messages, in order (filterMap over the ids,
never longer than the id set); and in a run where deliveries succeed, those
remaining messages are delivered and the cursor still advances to the
notification's historyId with no top-level error. -/
theorem fetch_skip_containment (ora : GmailOracle) (sendOk : Nat → Bool)
    (allowed : String) (store : CursorStore) (n : GmailNotification)
    (cursor1 tok : String) (feed : List HistoryItem)
    (hC1 : store (kvKey n.emailAddress) = some cursor1) (hne : cursor1 ≠ "")
    (htok : ora.refresh1 = .ok tok) (hfeed : ora.history1 = .ok feed)
    (hsend : ∀ j, sendOk j = true) :
    (∀ mid s b, ora.fetchMsg mid = .err s b → processMessage ora mid = none) ∧
    (fetchNewEmails ora n.emailAddress cursor1).1 =
      .ok ((collectAddedIds feed).filterMap (processMessage ora)) ∧
    ((collectAddedIds feed).filterMap (processMessage ora)).length ≤
      (collectAddedIds feed).length ∧
    (processNotification ora sendOk allowed store n).delivered =
      (((collectAddedIds feed).filterMap (processMessage ora)).filter
        (fun e => isAllowedSender e.fromAddr allowed)).map transformToOpenClaw ∧
    (processNotification ora sendOk allowed store n).store
        (kvKey n.emailAddress) = some n.historyId ∧
    (processNotification ora sendOk allowed store n).caught = false := by
  have hmaster := processNotification_nominal ora sendOk allowed store n
    cursor1 tok feed hC1 hne htok hfeed hsend
  refine ⟨?_, fetchNewEmails_ok ora n.emailAddress cursor1 tok feed htok hfeed,
    List.length_filterMap_le _ _, ?_, ?_, ?_⟩
  · intro mid s b hmid
    unfold processMessage
    rw [hmid]
  · rw [hmaster]
  · rw [hmaster]; simp [kvPut]
  · rw [hmaster]

/-- Witness for C7: three listed messages of which the fetch of m2 fails
with a 500: messages m1 and m3 are still delivered (two deliveries) and the
cursor still advances from "40" to "50". -/
theorem fetch_skip_containment_witness :
    processMessage oraSkip "m2" = none ∧
    (processNotification oraSkip (fun _ => true) "" store40 n50).delivered.length = 2 ∧
    (processNotification oraSkip (fun _ => true) "" store40 n50).store
        (kvKey "a@x.com") = some "50" ∧
    (processNotification oraSkip (fun _ => true) "" store40 n50).caught = false := by
  have h := fetch_skip_containment oraSkip (fun _ => true) "" store40 n50 "40" "tok"
    [⟨[⟨"m1"⟩, ⟨"m2"⟩, ⟨"m3"⟩], [], [], []⟩] rfl (by decide) rfl rfl (fun j => rfl)
  exact ⟨h.1 "m2" 500 "boom" rfl, by decide, h.2.2.2.2.1, h.2.2.2.2.2⟩

/-- Counterexample to C2 as stated: stored cursor "40", notification cursor
"50", two resolvable messages, empty allow-list, and a first delivery that
fails after all retry attempts.  The claim says m2 would still be delivered
and the cursor advanced to "50"; the code aborts the loop at the throw
(nothing is delivered), swallows the error at the top level and leaves the
cursor at "40". -/
theorem delivery_failure_not_contained :
    (processNotification oraTwoMsgs (fun _ => false) "" store40 n50).delivered = [] ∧
    (processNotification oraTwoMsgs (fun _ => false) "" store40 n50).store
        (kvKey "a@x.com") = some "40" ∧
    (processNotification oraTwoMsgs (fun _ => false) "" store40 n50).store
        (kvKey "a@x.com") ≠ some "50" ∧
    (processNotification oraTwoMsgs (fun _ => false) "" store40 n50).caught = true := by
  refine ⟨by decide, by decide, by decide, by decide⟩

/-- C2 amended: when the notification resolves to messages m1..mn and the
delivery of the (k+1)-st message that passes the filter fails after all
retry attempts (sendToOpenClawWithRetry throws), the throw propagates out of
the per-message loop into the top-level catch: exactly the passing messages
before it are delivered, the messages after it are not, the stored cursor is
NOT advanced (the store is returned unchanged), and the error is swallowed.
A delivery failure therefore prevents cursor advancement just like AuthError
and ResolutionError do. -/
theorem delivery_failure_aborts (ora : GmailOracle) (sendOk : Nat → Bool)
    (allowed : String) (store : CursorStore) (n : GmailNotification)
    (cursor1 tok : String) (feed : List HistoryItem) (es : List ParsedEmail)
    (k : Nat)
    (hC1 : store (kvKey n.emailAddress) = some cursor1) (hne : cursor1 ≠ "")
    (htok : ora.refresh1 = .ok tok) (hfeed : ora.history1 = .ok feed)
    (hres : resolveAll (processMessage ora) (collectAddedIds feed) = some es)
    (hk : k < (es.filter (fun e => isAllowedSender e.fromAddr allowed)).length)
    (hok : ∀ j, j < k → sendOk j = true) (hfail : sendOk k = false) :
    (processNotification ora sendOk allowed store n).delivered =
      ((es.filter (fun e => isAllowedSender e.fromAddr allowed)).take k).map
        transformToOpenClaw ∧
    (processNotification ora sendOk allowed store n).store = store ∧
    (processNotification ora sendOk allowed store n).caught = true := by
  have hmap := resolveAll_filterMap (processMessage ora) (collectAddedIds feed) es hres
  have hfetch := fetchNewEmails_ok ora n.emailAddress cursor1 tok feed htok hfeed
  rw [hmap] at hfetch
  unfold processNotification
  rw [hC1]
  simp only [if_neg hne]
  rw [hfetch]
  have hlen : ¬ es.length = 0 := by
    intro h0
    rw [List.length_eq_zero.mp h0] at hk
    simp at hk
  simp only [if_neg hlen]
  obtain ⟨fc, hfc⟩ := deliverLoop_fail allowed sendOk es k 0 0 0
    (fun j hj => by simpa using hok j hj) (by simpa using hfail) hk
  rw [hfc]
  exact ⟨rfl, rfl, rfl⟩

/-- Witness for the amended C2: first delivery succeeds, second fails:
exactly one payload is delivered, the cursor stays "40", the error is
swallowed. -/
theorem delivery_failure_aborts_witness :
    (processNotification oraTwoMsgs (fun i => i == 0) "" store40 n50).delivered.length = 1 ∧
    (processNotification oraTwoMsgs (fun i => i == 0) "" store40 n50).store
        (kvKey "a@x.com") = some "40" ∧
    (processNotification oraTwoMsgs (fun i => i == 0) "" store40 n50).caught = true := by
  have h := delivery_failure_aborts oraTwoMsgs (fun i => i == 0) "" store40 n50
    "40" "tok" [⟨[⟨"m1"⟩, ⟨"m2"⟩], [], [], []⟩]
    ((collectAddedIds [⟨[⟨"m1"⟩, ⟨"m2"⟩], [], [], []⟩]).filterMap
      (processMessage oraTwoMsgs)) 1
    rfl (by decide) rfl rfl (by decide) (by decide)
    (fun j hj => by
      have hj0 : j = 0 := by omega
      rw [hj0]
      rfl)
    rfl
  refine ⟨?_, ?_, h.2.2⟩
  · rw [h.1]; decide
  · rw [h.2.1]; rfl

/-- kvPut touches only its own key. -/
theorem kvPut_cases (st : CursorStore) (key v k : String) :
    kvPut st key v k = st k ∨ (k = key ∧ kvPut st key v k = some v) := by
  unfold kvPut
  by_cases hk : k = key
  · right
    exact ⟨hk, by rw [if_pos hk]⟩
  · left
    rw [if_neg hk]

/-- C4 amended: the store keeps at most one cursor per mailbox (the handler
reads and writes the single key `last_history_` ++ mailbox, and the store
maps each key to at most one value), and across every operation of the
handler each key either keeps its old value or — only the processed
mailbox's key — is overwritten with the incoming notification's cursor.  The
code never compares cursors, so the stored value is non-decreasing only when
the incoming cursor is not smaller than the stored one; the counterexample
shows a decrease when it is. -/
theorem cursor_store_update (ora : GmailOracle) (sendOk : Nat → Bool)
    (allowed : String) (store : CursorStore) (n : GmailNotification)
    (k : String) :
    (processNotification ora sendOk allowed store n).store k = store k ∨
    (k = kvKey n.emailAddress ∧
      (processNotification ora sendOk allowed store n).store k = some n.historyId) := by
  unfold processNotification
  cases hget : store (kvKey n.emailAddress) with
  | none => exact kvPut_cases store (kvKey n.emailAddress) n.historyId k
  | some c =>
    dsimp only
    by_cases hc : c = ""
    · rw [if_pos hc]
      exact kvPut_cases store (kvKey n.emailAddress) n.historyId k
    · rw [if_neg hc]
      cases hfe : (fetchNewEmails ora n.emailAddress c).1 with
      | error e => left; rfl
      | ok emails =>
        dsimp only
        by_cases hlen : emails.length = 0
        · rw [if_pos hlen]
          exact kvPut_cases store (kvKey n.emailAddress) n.historyId k
        · rw [if_neg hlen]
          by_cases hab : (deliverLoop allowed sendOk emails 0 0 0).2.2.2 = true
          · rw [if_pos hab]
            left
            rfl
          · rw [if_neg hab]
            exact kvPut_cases store (kvKey n.emailAddress) n.historyId k

/-- Counterexample to C4 as stated ("the cursor stored for a mailbox is never
decreased"): with stored cursor "50" and an incoming notification carrying
cursor "40" (an empty feed run), the handler overwrites the cursor with "40",
numerically smaller than "50". -/
theorem cursor_decrease_example :
    store50 (kvKey "a@x.com") = some "50" ∧
    (processNotification oraEmptyFeed (fun _ => true) "" store50
        { emailAddress := "a@x.com", historyId := "40" }).store
      (kvKey "a@x.com") = some "40" ∧
    cursorVal "40" < cursorVal "50" := by
  refine ⟨by decide, by decide, by decide⟩

/-- The trace part of runHistory just records its arguments. -/
theorem runHistory_trace (ora : GmailOracle) (rc : Nat)
    (qs : List (String × String)) (r : HttpResult (List HistoryItem)) :
    (runHistory ora rc qs r).2.refreshCalls = rc ∧
    (runHistory ora rc qs r).2.queries = qs := by
  cases r with
  | err s b => exact ⟨rfl, rfl⟩
  | ok feed =>
    unfold runHistory
    dsimp only
    by_cases h : (collectAddedIds feed).length = 0
    · rw [if_pos h]; exact ⟨rfl, rfl⟩
    · rw [if_neg h]; exact ⟨rfl, rfl⟩

/-- C6: single auth retry in resolution.  Given a successful initial token
refresh: (a) a non-401 rejection of the history query is fatal at once — a
single query was issued, no second credential is obtained; (b) on a 401 a
fresh credential is obtained exactly once (two refresh calls in total) and
the identical (mailbox, startHistoryId) query is issued a second time, and a
non-ok retried response — whatever its status, including a second 401 — makes
fetchNewEmails throw (fatal for this notification), while a rejected second
refresh throws the auth error; (c) a successful first query issues exactly
one query with the single initial refresh. -/
theorem auth_retry_once (ora : GmailOracle) (m c tok : String)
    (htok : ora.refresh1 = .ok tok) :
    (∀ s b, s ≠ 401 → ora.history1 = .err s b →
        (fetchNewEmails ora m c).1 = .error (.historyListFailed s b) ∧
        (fetchNewEmails ora m c).2.queries = [(m, c)] ∧
        (fetchNewEmails ora m c).2.refreshCalls = 1) ∧
    (∀ b, ora.history1 = .err 401 b →
        (∀ tok2, ora.refresh2 = .ok tok2 →
            (fetchNewEmails ora m c).2.queries = [(m, c), (m, c)] ∧
            (fetchNewEmails ora m c).2.refreshCalls = 2 ∧
            (∀ s2 b2, ora.history2 = .err s2 b2 →
                (fetchNewEmails ora m c).1 = .error (.historyListFailed s2 b2))) ∧
        (∀ e2, ora.refresh2 = .error e2 →
            (fetchNewEmails ora m c).1 = .error (.tokenRefreshFailed e2))) ∧
    (∀ feed, ora.history1 = .ok feed →
        (fetchNewEmails ora m c).2.queries = [(m, c)] ∧
        (fetchNewEmails ora m c).2.refreshCalls = 1) := by
  refine ⟨?_, ?_, ?_⟩
  · intro s b hs h1
    unfold fetchNewEmails
    rw [htok, h1]
    have h401 : is401 (HttpResult.err s b : HttpResult (List HistoryItem)) = false := by
      simp [is401, hs]
    rw [h401]
    simp only [Bool.false_eq_true, if_false]
    exact ⟨rfl, rfl, rfl⟩
  · intro b h1
    have h401 : is401 (HttpResult.err 401 b : HttpResult (List HistoryItem)) = true := by
      simp [is401]
    constructor
    · intro tok2 h2
      have hq : (fetchNewEmails ora m c) =
          runHistory ora 2 [(m, c), (m, c)] ora.history2 := by
        unfold fetchNewEmails
        rw [htok, h1, h401, h2]
        simp
      have ht := runHistory_trace ora 2 [(m, c), (m, c)] ora.history2
      refine ⟨by rw [hq]; exact ht.2, by rw [hq]; exact ht.1, ?_⟩
      intro s2 b2 hh2
      rw [hq, hh2]
      rfl
    · intro e2 h2
      unfold fetchNewEmails
      rw [htok, h1, h401, h2]
      simp
  · intro feed h1
    have h401 : is401 (HttpResult.ok feed : HttpResult (List HistoryItem)) = false := rfl
    have hq : (fetchNewEmails ora m c) =
        runHistory ora 1 [(m, c)] (HttpResult.ok feed) := by
      unfold fetchNewEmails
      rw [htok, h1, h401]
      simp
    have ht := runHistory_trace ora 1 [(m, c)] (HttpResult.ok feed)
    exact ⟨by rw [hq]; exact ht.2, by rw [hq]; exact ht.1⟩

/-- Witness for C6: a 401 first response, a fresh token, and a 403 on the
retried query: the identical query appears twice, exactly one extra refresh
is performed, and the notification fails with the resolution error. -/
theorem auth_retry_once_witness :
    (fetchNewEmails ora401 "a@x.com" "40").2.queries =
      [("a@x.com", "40"), ("a@x.com", "40")] ∧
    (fetchNewEmails ora401 "a@x.com" "40").2.refreshCalls = 2 ∧
    (fetchNewEmails ora401 "a@x.com" "40").1 =
      .error (.historyListFailed 403 "denied") := by
  have h := (auth_retry_once ora401 "a@x.com" "40" "tok" rfl).2.1 "expired" rfl
  have h2 := h.1 "tok2" rfl
  exact ⟨h2.1, h2.2.1, h2.2.2 403 "denied" rfl⟩

/-- C10: missing-raw skip.  If a per-message fetch succeeds but the record
has no raw content, processMessage skips the message exactly as it does a
failed fetch — none, no error — and history resolution still returns ok with
the remaining messages, so the returned list can be shorter than the id set
even when every fetch request succeeds. -/
theorem missing_raw_skip (ora : GmailOracle) (m c tok mid : String)
    (msg : FetchedMessage) (feed : List HistoryItem) :
    (ora.fetchMsg mid = .ok msg → msg.raw = none → processMessage ora mid = none) ∧
    (ora.refresh1 = .ok tok → ora.history1 = .ok feed →
      (fetchNewEmails ora m c).1 =
        .ok ((collectAddedIds feed).filterMap (processMessage ora)) ∧
      ((collectAddedIds feed).filterMap (processMessage ora)).length ≤
        (collectAddedIds feed).length) := by
  constructor
  · intro hm hraw
    unfold processMessage
    rw [hm]
    dsimp only
    rw [hraw]
  · intro htok hfeed
    exact ⟨fetchNewEmails_ok ora m c tok feed htok hfeed,
      List.length_filterMap_le _ _⟩

/-- Witness for C10: one listed message whose fetch succeeds with no raw
data: it is skipped silently and resolution returns ok with the empty list,
shorter than the one-element id set. -/
theorem missing_raw_skip_witness :
    processMessage oraNoRaw "m1" = none ∧
    (fetchNewEmails oraNoRaw "a@x.com" "40").1 = .ok [] ∧
    collectAddedIds [⟨[⟨"m1"⟩], [], [], []⟩] = ["m1"] := by
  have h := missing_raw_skip oraNoRaw "a@x.com" "40" "tok" "m1"
    ⟨"m1", "t1", none, none⟩ [⟨[⟨"m1"⟩], [], [], []⟩]
  have h1 := h.1 rfl rfl
  have h2 := (h.2 rfl rfl).1
  refine ⟨h1, ?_, by decide⟩
  rw [h2]
  rfl

set_option maxRecDepth 4000 in
/-- Counterexample to C8 as stated: oraAstral's message body is 199 'a' code
units followed by one surrogate pair (one supplementary code point).
substring(0, 200) cuts the pair, so the produced snippet ends in a lone
surrogate: read as code points it is not a prefix of the body and differs
from the first 200 code points of the body — the truncation is not
unicode-codepoint-safe. -/
theorem snippet_not_codepoint_safe :
    (processMessage oraAstral "m1").isSome = true ∧
    ¬ (utf16Decode astralEmail.snippet <+: utf16Decode astralEmail.body) ∧
    utf16Decode astralEmail.snippet ≠ (utf16Decode astralEmail.body).take 200 := by
  refine ⟨by decide, by decide, by decide⟩

/-- C8 amended: for every fetched message the snippet is the first 200
UTF-16 code units of the resolved body — independent of any
provider-supplied snippet, which the code never reads — hence a code-unit
prefix of the body of at most 200 units (so also at most 200 code points),
empty when the body is empty; it equals codepoint-safe truncation except
when a surrogate pair straddles the 200-unit boundary (see the
counterexample). -/
theorem snippet_truncation (ora : GmailOracle) (mid : String) (e : ParsedEmail)
    (h : processMessage ora mid = some e) :
    e.snippet = e.body.take 200 ∧
    e.snippet <+: e.body ∧
    e.snippet.length ≤ 200 ∧
    (utf16Decode e.snippet).length ≤ 200 ∧
    (e.body = [] → e.snippet = []) := by
  unfold processMessage at h
  cases hm : ora.fetchMsg mid with
  | err s b => rw [hm] at h; exact absurd h (by simp)
  | ok msg =>
    rw [hm] at h
    dsimp only at h
    cases hraw : msg.raw with
    | none => rw [hraw] at h; exact absurd h (by simp)
    | some raw =>
      rw [hraw] at h
      dsimp only at h
      have he := Option.some.inj h
      rw [← he]
      refine ⟨?_, ?_, ?_, ?_, ?_⟩
      · simp [jsSubstring]
      · simp only [jsSubstring, List.drop_zero]
        exact List.take_prefix 200 _
      · simp only [jsSubstring, List.drop_zero]
        exact List.length_take_le 200 _
      · simp only [jsSubstring, List.drop_zero]
        exact le_trans (utf16Decode_length_le _) (List.length_take_le 200 _)
      · intro hb
        dsimp only at hb ⊢
        simp only [jsSubstring, List.drop_zero]
        rw [hb]
        simp

/-- Witness for the amended C8, at the astral-boundary message itself. -/
theorem snippet_truncation_witness :
    astralEmail.snippet = astralEmail.body.take 200 ∧
    astralEmail.snippet <+: astralEmail.body ∧
    astralEmail.snippet.length ≤ 200 ∧
    (utf16Decode astralEmail.snippet).length ≤ 200 ∧
    (astralEmail.body = [] → astralEmail.snippet = []) :=
  snippet_truncation oraAstral "m1" astralEmail rfl
